import Mathlib

/-!
# Verification of the Game of Life simulator (src/main.c)

Shallow embedding of the program's data model and operations:

* the compile-time configuration constants and the derived constants,
* the transition engine `updateCells` with its neighbor-counting loop,
* the input-file parser `readInput`,
* the frame loop of `main` (frame counter, render/tick schedule, delay).

The grid is modelled as a total function `Int → Int → Bool`, mirroring the
C `bool cells[N_CELLS_ROW][N_CELLS_COL]` indexed as `cells[x][y]` with
`int` indices; only coordinates in `[0, N_CELLS_ROW) × [0, N_CELLS_COL)`
belong to the real array, and every operation is stated relative to that
window.
-/

/-! ## Configuration constants (main.c lines 7-24) -/

def SCR_WIDTH : Nat := 640
def SCR_HEIGHT : Nat := 480
def CELL_SIZE : Nat := 8
def FPS : Nat := 240
def SIMULATION_FPS : Nat := 20

/-- Derived constant `N_CELLS_ROW = SCR_WIDTH / CELL_SIZE` (= 80). -/
def N_CELLS_ROW : Nat := SCR_WIDTH / CELL_SIZE

/-- Derived constant `N_CELLS_COL = SCR_HEIGHT / CELL_SIZE` (= 60). -/
def N_CELLS_COL : Nat := SCR_HEIGHT / CELL_SIZE

/-- Derived constant `FRAMES_PER_ITERATION = FPS / SIMULATION_FPS` (= 12). -/
def FRAMES_PER_ITERATION : Nat := FPS / SIMULATION_FPS

/-! ## Grid and the transition engine (`updateCells`, main.c lines 105-141) -/

/-- The cell field: `cells[x][y]`, modelled as a total boolean function on
`Int × Int` coordinates. The real array is the window
`[0, N_CELLS_ROW) × [0, N_CELLS_COL)`. -/
def Grid : Type := Int → Int → Bool

/-- The loop offsets `-1, 0, 1` traversed by both the `dx` and `dy` loops
of `updateCells` (main.c lines 114, 116). -/
def offsets : List Int := [-1, 0, 1]

/-- The `neighbors` accumulator computed by `updateCells` for cell `(x, y)`
(main.c lines 113-120): the `dx` loop skips columns outside
`[0, N_CELLS_ROW)`, the `dy` loop skips rows outside `[0, N_CELLS_COL)`,
and every remaining position `(x+dx, y+dy)` — including `dx = dy = 0`,
i.e. the cell itself — contributes `cells[x+dx][y+dy]` as 0 or 1. -/
def countNeighbors (g : Grid) (x y : Int) : Nat :=
  (offsets.map fun dx =>
    if x + dx < 0 ∨ (N_CELLS_ROW : Int) ≤ x + dx then 0
    else
      (offsets.map fun dy =>
        if y + dy < 0 ∨ (N_CELLS_COL : Int) ≤ y + dy then 0
        else (g (x + dx) (y + dy)).toNat).sum).sum

/-- One call of `updateCells` (main.c lines 105-141): every in-window cell
gets the new value computed from `neighbors` (lines 124-133: a live cell
dies when `neighbors < 3` or `neighbors > 4`, otherwise lives; a dead cell
is born exactly when `neighbors == 3`); cells outside the window do not
exist in the C array and are left untouched by the model. -/
def updateCells (g : Grid) : Grid := fun x y =>
  if 0 ≤ x ∧ x < (N_CELLS_ROW : Int) ∧ 0 ≤ y ∧ y < (N_CELLS_COL : Int) then
    if g x y then
      if countNeighbors g x y < 3 then false
      else if countNeighbors g x y > 4 then false
      else true
    else
      if countNeighbors g x y = 3 then true
      else false
  else g x y

/-! ## Reference definitions for the neighbor-count claims

The spec speaks of the count of alive Moore neighbors, "the up-to-8
surrounding cells, excluding the cell itself", clipped at the grid
boundary. `mooreCount` renders those words; `conwayStep` renders the
canonical B3/S23 rule stated by the refinement claim ("a live cell
survives exactly when it has 2 or 3 alive neighbors excluding itself,
and a dead cell is born exactly when it has 3"). They are compared
against the source-derived `countNeighbors`/`updateCells`. -/

/-- The spec's neighbor count: alive cells among the up-to-8 surrounding
positions, excluding the cell itself, clipped to the grid window. -/
def mooreCount (g : Grid) (x y : Int) : Nat :=
  (offsets.map fun dx =>
    (offsets.map fun dy =>
      if dx = 0 ∧ dy = 0 then 0
      else
        if x + dx < 0 ∨ (N_CELLS_ROW : Int) ≤ x + dx then 0
        else
          if y + dy < 0 ∨ (N_CELLS_COL : Int) ≤ y + dy then 0
          else (g (x + dx) (y + dy)).toNat).sum).sum

/-- The canonical Conway step (B3/S23) on the same bounded window, written
from the refinement claim's words: a live cell survives iff it has 2 or 3
alive Moore neighbors (excluding itself), a dead cell is born iff it has
exactly 3. -/
def conwayStep (g : Grid) : Grid := fun x y =>
  if 0 ≤ x ∧ x < (N_CELLS_ROW : Int) ∧ 0 ≤ y ∧ y < (N_CELLS_COL : Int) then
    if g x y then decide (mooreCount g x y = 2 ∨ mooreCount g x y = 3)
    else decide (mooreCount g x y = 3)
  else g x y

/-- A grid that is alive exactly on a finite list of coordinates; used to
build concrete test grids. -/
def gridOfList (l : List (Int × Int)) : Grid := fun i j => decide ((i, j) ∈ l)

/-- The all-dead grid. -/
def gridZero : Grid := fun _ _ => false

/-! ## Concrete test grids -/

/-- Live cell at `(1, 1)` with exactly 4 alive Moore neighbors. -/
def fourNeighborGrid : Grid :=
  gridOfList [(1, 1), (0, 0), (0, 1), (0, 2), (1, 0)]

/-- A horizontal blinker: live cell at `(1, 1)` with 2 alive Moore
neighbors. -/
def blinkerGrid : Grid := gridOfList [(0, 1), (1, 1), (2, 1)]

/-- Dead cell at `(1, 1)` surrounded by exactly 3 alive Moore neighbors. -/
def birthGrid : Grid := gridOfList [(0, 1), (1, 0), (1, 2)]

/-! ## The input parser (`readInput`, main.c lines 181-211)

The file's contents are modelled as a `List Char` (the successfully opened
stream); the parse loop threads the cursor `(x, y)` and the grid, writing
`cells[x][y]` in place for each `'#'`/`'.'` character, resetting `x` and
advancing `y` on `'\n'`, and aborting with the offending character on
anything else. -/

/-- Result of the parse loop: clean end of file, or the parse error
`readInput` reports together with the offending character it prints
(main.c line 203) before returning `EXIT_FAILURE`. -/
inductive ReadOutcome where
  | success : ReadOutcome
  | parseError (c : Char) : ReadOutcome
deriving DecidableEq

/-- The in-place write `cells[x][y] = b` performed by the parse loop. -/
def setCell (g : Grid) (x y : Nat) (b : Bool) : Grid :=
  fun i j => if i = (x : Int) ∧ j = (y : Int) then b else g i j

/-- The character loop of `readInput` (main.c lines 192-207), started at
cursor `(x, y)`. -/
def readLoop : List Char → Grid → Nat → Nat → Grid × ReadOutcome
  | [], g, _, _ => (g, .success)
  | c :: cs, g, x, y =>
    if c = '\n' then readLoop cs g 0 (y + 1)
    else if c = '#' then readLoop cs (setCell g x y true) (x + 1) y
    else if c = '.' then readLoop cs (setCell g x y false) (x + 1) y
    else (g, .parseError c)

/-- The whole of `readInput` on an opened file with the given contents:
the loop runs from cursor `(0, 0)` over the grid passed in by `main`. -/
def readInput (g : Grid) (input : List Char) : Grid × ReadOutcome :=
  readLoop input g 0 0

/-- What `main` does after its startup checks when called with one file
argument: either it returns `EXIT_FAILURE` before the main loop, or it
enters the main loop with the initialized grid. -/
inductive MainBehavior where
  | exitFailure : MainBehavior
  | enterLoop (g : Grid) : MainBehavior

/-- The file-argument path of `main` (main.c lines 42-68): the screen/cell
ratio check, the `FRAMES_PER_ITERATION` check, then
`if (readInput(cells, argv[1]) != EXIT_SUCCESS) return EXIT_FAILURE;`;
only on success does control reach the main loop. -/
def mainWithFile (g0 : Grid) (input : List Char) : MainBehavior :=
  if SCR_WIDTH % CELL_SIZE ≠ 0 ∨ SCR_HEIGHT % CELL_SIZE ≠ 0 then .exitFailure
  else if FRAMES_PER_ITERATION = 0 then .exitFailure
  else
    match readInput g0 input with
    | (_, .parseError _) => .exitFailure
    | (g, .success) => .enterLoop g

/-- A character the parse loop accepts without aborting. -/
def validChar (c : Char) : Prop := c = '\n' ∨ c = '#' ∨ c = '.'

instance : DecidablePred validChar := fun c => by unfold validChar; infer_instance

/-- The cell positions (with values) written by the parse loop from cursor
`(x, y)`, in write order; mirrors `readLoop` and stops at the first
invalid character, so it lists exactly the cells addressed by the
characters the loop actually consumes. -/
def parseWrites : List Char → Nat → Nat → List (Nat × Nat × Bool)
  | [], _, _ => []
  | c :: cs, x, y =>
    if c = '\n' then parseWrites cs 0 (y + 1)
    else if c = '#' then (x, y, true) :: parseWrites cs (x + 1) y
    else if c = '.' then (x, y, false) :: parseWrites cs (x + 1) y
    else []

/-- Replay a list of cell writes onto a grid, in order. -/
def applyWrites (g : Grid) : List (Nat × Nat × Bool) → Grid
  | [] => g
  | w :: ws => applyWrites (setCell g w.1 w.2.1 w.2.2) ws

/-! ## Round-trip: serializing a pattern and parsing it back (C8) -/

/-- One text line for a row of cells: `'#'` for alive, `'.'` for dead. -/
def encodeRow (bs : List Bool) : List Char :=
  bs.map fun b => if b then '#' else '.'

/-- A well-formed text block: each row's line followed by a newline. -/
def encodeRows : List (List Bool) → List Char
  | [] => []
  | bs :: rest => encodeRow bs ++ '\n' :: encodeRows rest

/-- The writes the parse loop performs across one row of `'#'`/`'.'`
characters: cell `(x, y)`, then `(x+1, y)`, and so on. -/
def applyRow : Grid → List Bool → Nat → Nat → Grid
  | g, [], _, _ => g
  | g, b :: bs, x, y => applyRow (setCell g x y b) bs (x + 1) y

/-- A full-size all-dead block except an alive first column, used to
witness the round-trip at the grid's exact dimensions. -/
def patternRows : List (List Bool) :=
  List.replicate N_CELLS_COL (true :: List.replicate (N_CELLS_ROW - 1) false)

/-! ## The main loop (main.c lines 71-91)

`for (int frame = 0; !quit; frame = (frame+1) % FRAMES_PER_ITERATION)`:
each iteration draws the screen, runs `updateCells` exactly when
`frame == 0` on entry, and advances the counter modulo the divisor. The
divisor is left as a parameter `N` so the schedule is proved for every
valid configuration (`N = FPS / SIMULATION_FPS ≥ 1`); the program's own
divisor is `FRAMES_PER_ITERATION`. -/

/-- Loop state at the top of an iteration: the `frame` counter and the
cell grid. -/
structure LoopState where
  frame : Nat
  grid : Grid

/-- Observable events of one frame: whether the screen was drawn and
whether the transition engine ran. -/
structure FrameOutput where
  rendered : Bool
  ticked : Bool

/-- One iteration of the main loop body with divisor `N`: always render,
run `updateCells` iff the counter is 0 on entry, then advance the counter
modulo `N`. -/
def loopBodyN (N : Nat) (s : LoopState) : LoopState × FrameOutput :=
  (⟨(s.frame + 1) % N, if s.frame = 0 then updateCells s.grid else s.grid⟩,
   ⟨true, decide (s.frame = 0)⟩)

/-- The program's loop body, with divisor `FRAMES_PER_ITERATION`. -/
def loopBody : LoopState → LoopState × FrameOutput :=
  loopBodyN FRAMES_PER_ITERATION

/-- Loop state on entry to iteration `k`, starting from
`frame = 0` and initial grid `g0` (main.c line 73). -/
def runFrames (N : Nat) (g0 : Grid) : Nat → LoopState
  | 0 => ⟨0, g0⟩
  | k + 1 => (loopBodyN N (runFrames N g0 k)).1

/-- The events of iteration `k`. -/
def frameOutput (N : Nat) (g0 : Grid) (k : Nat) : FrameOutput :=
  (loopBodyN N (runFrames N g0 k)).2

/-! ## Frame-rate throttling (main.c line 90) -/

/-- The end-of-frame delay:
`SDL_Delay((frameTime > 1000 / FPS) ? 0 : 1000 / FPS - frameTime)`,
where `frameTime` is the frame's measured duration in milliseconds and
`1000 / FPS` the target frame interval (integer division). -/
def delayMs (frameTime : Nat) : Nat :=
  if frameTime > 1000 / FPS then 0 else 1000 / FPS - frameTime

example : countNeighbors (gridOfList [(0, 0), (1, 1)]) 1 1 = 2 := by decide
example : mooreCount (gridOfList [(0, 0), (1, 1)]) 1 1 = 1 := by decide
example : updateCells blinkerGrid 1 1 = true := by decide
example : conwayStep blinkerGrid 1 1 = true := by decide
example : updateCells gridZero 5 5 = false := by decide
example : mooreCount fourNeighborGrid 1 1 = 4 := by decide
example : updateCells fourNeighborGrid 1 1 = false := by decide
example : mooreCount birthGrid 1 1 = 3 := by decide
example : updateCells birthGrid 1 1 = true := by decide

example : (readInput gridZero ['#', 'x']).2 = .parseError 'x' := by decide
example : (readInput gridZero ['#', 'x']).1 0 0 = true := by decide
example : (readInput gridZero ['#', '.', '\n', '.', '#']).1 1 1 = true := by decide
example : (readInput gridZero ['#', '.', '\n', '.', '#']).2 = .success := by decide
example : parseWrites ['#', '.', '\n', '.', 'x', '#'] 0 0 =
    [(0, 0, true), (1, 0, false), (0, 1, false)] := by decide

/-! ## Neighbor-count lemmas -/

/-- For an in-window cell, the loop's `neighbors` value is the Moore
neighbor count (excluding the cell) plus the cell's own value: the
`dx = dy = 0` iteration is not skipped and the center position passes both
bounds checks. -/
theorem count_eq_moore_add_self (g : Grid) (x y : Int)
    (hx0 : 0 ≤ x) (hx : x < (N_CELLS_ROW : Int))
    (hy0 : 0 ≤ y) (hy : y < (N_CELLS_COL : Int)) :
    countNeighbors g x y = mooreCount g x y + (g x y).toNat := by
  simp only [countNeighbors, mooreCount, offsets, List.map_cons, List.map_nil,
    List.sum_cons, List.sum_nil, N_CELLS_ROW, N_CELLS_COL, SCR_WIDTH, SCR_HEIGHT,
    CELL_SIZE] at *
  norm_num
  split_ifs <;> omega

/-- The `neighbors` value reads only cells inside the window: two grids
that agree on `[0, N_CELLS_ROW) × [0, N_CELLS_COL)` produce the same
count at every coordinate (no wraparound, out-of-range positions are
skipped by the bounds checks). -/
theorem count_congr (g g' : Grid)
    (h : ∀ i j : Int, 0 ≤ i → i < (N_CELLS_ROW : Int) → 0 ≤ j →
      j < (N_CELLS_COL : Int) → g i j = g' i j)
    (x y : Int) : countNeighbors g x y = countNeighbors g' x y := by
  unfold countNeighbors
  refine congrArg List.sum (List.map_congr_left ?_)
  intro dx _
  by_cases hrow : x + dx < 0 ∨ (N_CELLS_ROW : Int) ≤ x + dx
  · rw [if_pos hrow, if_pos hrow]
  · rw [if_neg hrow, if_neg hrow]
    refine congrArg List.sum (List.map_congr_left ?_)
    intro dy _
    by_cases hcol : y + dy < 0 ∨ (N_CELLS_COL : Int) ≤ y + dy
    · rw [if_pos hcol, if_pos hcol]
    · rw [if_neg hcol, if_neg hcol]
      rw [h (x + dx) (y + dy) (by omega) (by omega) (by omega) (by omega)]

/-- At the corner `(0, 0)` the bounds checks let through only the four positions
`(0,0), (0,1), (1,0), (1,1)`: the count is at most 4 and the neighbor
portion (excluding the cell itself) at most 3. -/
theorem corner_bounds (g : Grid) :
    countNeighbors g 0 0 ≤ 4 ∧ mooreCount g 0 0 ≤ 3 := by
  have h1 : (g 0 0).toNat ≤ 1 := Bool.toNat_le _
  have h2 : (g 0 1).toNat ≤ 1 := Bool.toNat_le _
  have h3 : (g 1 0).toNat ≤ 1 := Bool.toNat_le _
  have h4 : (g 1 1).toNat ≤ 1 := Bool.toNat_le _
  simp only [countNeighbors, mooreCount, offsets, List.map_cons, List.map_nil,
    List.sum_cons, List.sum_nil, N_CELLS_ROW, N_CELLS_COL, SCR_WIDTH, SCR_HEIGHT,
    CELL_SIZE]
  norm_num
  omega

/-! ## Parser lemmas -/

/-- The grid produced by the parse loop is the input grid with exactly the
writes of `parseWrites` replayed over it. -/
theorem readLoop_grid_eq (cs : List Char) :
    ∀ g x y, (readLoop cs g x y).1 = applyWrites g (parseWrites cs x y) := by
  induction cs with
  | nil => intro g x y; rfl
  | cons c cs ih =>
    intro g x y
    simp only [readLoop, parseWrites]
    split_ifs <;> simp [applyWrites, ih]

/-- A cell addressed by none of the replayed writes keeps its value. -/
theorem applyWrites_eq_of_notMem (ws : List (Nat × Nat × Bool)) :
    ∀ g (i j : Int), (∀ w ∈ ws, ¬(i = (w.1 : Int) ∧ j = (w.2.1 : Int))) →
      applyWrites g ws i j = g i j := by
  induction ws with
  | nil => intro g i j _; rfl
  | cons w ws ih =>
    intro g i j h
    simp only [applyWrites]
    rw [ih _ i j fun w' hw' => h w' (List.mem_cons_of_mem _ hw')]
    simp only [setCell]
    exact if_neg (h w (List.mem_cons_self _ _))

/-- If any character of the input is invalid, the parse loop ends in a
parse error carrying an invalid character. -/
theorem readLoop_invalid (cs : List Char) :
    ∀ g x y, (∃ c ∈ cs, ¬ validChar c) →
      ∃ c, (readLoop cs g x y).2 = .parseError c ∧ ¬ validChar c := by
  induction cs with
  | nil =>
    intro g x y h
    simp at h
  | cons c cs ih =>
    intro g x y h
    simp only [readLoop]
    split_ifs with h1 h2 h3
    · refine ih g 0 (y + 1) ?_
      rcases h with ⟨c', hc', hv⟩
      rcases List.mem_cons.1 hc' with rfl | hm
      · exact absurd (Or.inl h1) hv
      · exact ⟨c', hm, hv⟩
    · refine ih _ (x + 1) y ?_
      rcases h with ⟨c', hc', hv⟩
      rcases List.mem_cons.1 hc' with rfl | hm
      · exact absurd (Or.inr (Or.inl h2)) hv
      · exact ⟨c', hm, hv⟩
    · refine ih _ (x + 1) y ?_
      rcases h with ⟨c', hc', hv⟩
      rcases List.mem_cons.1 hc' with rfl | hm
      · exact absurd (Or.inr (Or.inr h3)) hv
      · exact ⟨c', hm, hv⟩
    · refine ⟨c, rfl, ?_⟩
      simp [validChar, h1, h2, h3]

/-- Running the parse loop over an encoded row writes that row left to
right and leaves the loop at the column after it. -/
theorem readLoop_encodeRow (bs : List Bool) :
    ∀ (rest : List Char) (g : Grid) (x y : Nat),
      readLoop (encodeRow bs ++ rest) g x y =
        readLoop rest (applyRow g bs x y) (x + bs.length) y := by
  induction bs with
  | nil => intro rest g x y; simp [encodeRow, applyRow]
  | cons b bs ih =>
    intro rest g x y
    cases b
    · show readLoop ('.' :: (encodeRow bs ++ rest)) g x y = _
      rw [readLoop, if_neg (by decide), if_neg (by decide), if_pos rfl, ih]
      show _ = readLoop rest (applyRow (setCell g x y false) bs (x + 1) y) _ y
      have hl : x + (bs.length + 1) = x + 1 + bs.length := by omega
      rw [List.length_cons, hl]
    · show readLoop ('#' :: (encodeRow bs ++ rest)) g x y = _
      rw [readLoop, if_neg (by decide), if_pos rfl, ih]
      show _ = readLoop rest (applyRow (setCell g x y true) bs (x + 1) y) _ y
      have hl : x + (bs.length + 1) = x + 1 + bs.length := by omega
      rw [List.length_cons, hl]

/-- Writing a row at columns `≥ x` and row `y` leaves every cell strictly
left of `x`, and every cell of any other row, unchanged. -/
theorem applyRow_frame (bs : List Bool) :
    ∀ (g : Grid) (x y : Nat) (i j : Int), (i < (x : Int) ∨ j ≠ (y : Int)) →
      applyRow g bs x y i j = g i j := by
  induction bs with
  | nil => intro g x y i j _; rfl
  | cons b bs ih =>
    intro g x y i j h
    show applyRow (setCell g x y b) bs (x + 1) y i j = g i j
    rw [ih _ (x + 1) y i j (by push_cast; omega)]
    simp only [setCell]
    exact if_neg (by rintro ⟨rfl, rfl⟩; omega)

/-- The value a row write leaves at column `x0 + x` of row `y` is the
`x`-th entry of the row. -/
theorem applyRow_value (bs : List Bool) :
    ∀ (g : Grid) (x0 y x : Nat), x < bs.length →
      applyRow g bs x0 y ((x0 + x : Nat) : Int) (y : Int) = bs.getD x false := by
  induction bs with
  | nil => intro g x0 y x hx; simp at hx
  | cons b bs ih =>
    intro g x0 y x hx
    show applyRow (setCell g x0 y b) bs (x0 + 1) y _ _ = _
    cases x with
    | zero =>
      rw [applyRow_frame bs _ (x0 + 1) y _ _ (by push_cast; omega)]
      simp [setCell]
    | succ x =>
      have hidx : (x0 + (x + 1) : Nat) = (x0 + 1) + x := by omega
      rw [hidx, ih _ (x0 + 1) y x (by simpa using hx)]
      rfl

/-- The parse loop started at row `y` never changes rows above it. -/
theorem readLoop_row_frame (cs : List Char) :
    ∀ (g : Grid) (x y : Nat) (i : Int) (j : Nat), j < y →
      (readLoop cs g x y).1 i (j : Int) = g i (j : Int) := by
  induction cs with
  | nil => intro g x y i j _; rfl
  | cons c cs ih =>
    intro g x y i j hj
    rw [readLoop]
    split_ifs
    · exact ih g 0 (y + 1) i j (by omega)
    · rw [ih _ (x + 1) y i j hj]
      simp only [setCell]
      exact if_neg (by rintro ⟨-, h⟩; have := Int.ofNat_inj.mp h; omega)
    · rw [ih _ (x + 1) y i j hj]
      simp only [setCell]
      exact if_neg (by rintro ⟨-, h⟩; have := Int.ofNat_inj.mp h; omega)
    · rfl

/-- The parse loop succeeds on input made only of valid characters. -/
theorem readLoop_valid_success (cs : List Char) :
    ∀ (g : Grid) (x y : Nat), (∀ c ∈ cs, validChar c) →
      (readLoop cs g x y).2 = .success := by
  induction cs with
  | nil => intro g x y _; rfl
  | cons c cs ih =>
    intro g x y h
    have hc : validChar c := h c (List.mem_cons_self _ _)
    have ht : ∀ c' ∈ cs, validChar c' := fun c' hm => h c' (List.mem_cons_of_mem _ hm)
    rw [readLoop]
    split_ifs with h1 h2 h3
    · exact ih g 0 (y + 1) ht
    · exact ih _ (x + 1) y ht
    · exact ih _ (x + 1) y ht
    · exact absurd hc (by simp [validChar, h1, h2, h3])

/-- Every character of an encoded block is `'#'`, `'.'` or newline. -/
theorem encodeRows_valid : ∀ (rows : List (List Bool)),
    ∀ c ∈ encodeRows rows, validChar c := by
  intro rows
  induction rows with
  | nil => intro c hc; simp [encodeRows] at hc
  | cons bs rest ih =>
    intro c hc
    rw [encodeRows] at hc
    rcases List.mem_append.1 hc with hm | hm
    · obtain ⟨b, -, rfl⟩ := List.mem_map.1 hm
      cases b
      · exact Or.inr (Or.inr rfl)
      · exact Or.inr (Or.inl rfl)
    · rcases List.mem_cons.1 hm with rfl | hm'
      · exact Or.inl rfl
      · exact ih c hm'

/-- The grid the parse loop leaves at cell `(x, y0 + y)` after reading an
encoded block starting at row `y0` is the `(x, y)` entry of the block. -/
theorem readLoop_encodeRows_value : ∀ (rows : List (List Bool)) (g : Grid)
    (y0 x y : Nat), y < rows.length → x < (rows.getD y []).length →
    (readLoop (encodeRows rows) g 0 y0).1 (x : Int) ((y0 + y : Nat) : Int) =
      (rows.getD y []).getD x false := by
  intro rows
  induction rows with
  | nil => intro g y0 x y hy _; simp at hy
  | cons r rest ih =>
    intro g y0 x y hy hx
    rw [encodeRows, readLoop_encodeRow, readLoop, if_pos rfl]
    cases y with
    | zero =>
      have hx' : x < r.length := by simpa using hx
      have hval := applyRow_value r g 0 y0 x hx'
      rw [Nat.zero_add] at hval
      have hfr := readLoop_row_frame (encodeRows rest) (applyRow g r 0 y0) 0
        (y0 + 1) ((x : Nat) : Int) y0 (by omega)
      simp only [Nat.add_zero]
      rw [hfr, hval]
      rfl
    | succ y =>
      have hidx : (y0 + (y + 1) : Nat) = (y0 + 1) + y := by omega
      rw [hidx, ih _ (y0 + 1) x y (by simpa using hy) (by simpa using hx)]
      rfl

/-! ## Claims C1-C4: the transition rule -/

/-- C1, counterexample. The claim states a live cell stays alive iff its
count of alive Moore neighbors (excluding itself) is in `[3, 4]`. The live
cell `(1, 1)` of `fourNeighborGrid` has exactly 4 alive Moore neighbors
yet dies, because the loop's count additionally includes the cell itself
(giving 5 > 4). -/
theorem c1_live_rule_counterexample :
    fourNeighborGrid 1 1 = true ∧
    ¬(updateCells fourNeighborGrid 1 1 = true ↔
        (3 ≤ mooreCount fourNeighborGrid 1 1 ∧
         mooreCount fourNeighborGrid 1 1 ≤ 4)) := by decide

/-- C1, amended. A live in-window cell stays alive iff the loop's count —
which includes the cell itself — is in `[3, 4]`; in terms of alive Moore
neighbors excluding the cell itself, it stays alive iff that number is
2 or 3, and dies when it is below 2 or above 3. -/
theorem c1_live_rule_amended (g : Grid) (x y : Int)
    (hx0 : 0 ≤ x) (hx : x < (N_CELLS_ROW : Int))
    (hy0 : 0 ≤ y) (hy : y < (N_CELLS_COL : Int)) (ha : g x y = true) :
    (updateCells g x y = true ↔
      (3 ≤ countNeighbors g x y ∧ countNeighbors g x y ≤ 4)) ∧
    (updateCells g x y = true ↔
      (mooreCount g x y = 2 ∨ mooreCount g x y = 3)) := by
  have hkey := count_eq_moore_add_self g x y hx0 hx hy0 hy
  rw [ha, Bool.toNat_true] at hkey
  simp only [updateCells, if_pos (show _ ∧ _ ∧ _ ∧ _ from ⟨hx0, hx, hy0, hy⟩), ha,
    if_true]
  constructor <;> (split_ifs <;> simp <;> omega)

/-- C1, witness: the blinker's center cell is live with 2 alive Moore
neighbors (loop count 3) and both amended characterizations hold there. -/
theorem c1_live_rule_witness :
    blinkerGrid 1 1 = true ∧
    ((updateCells blinkerGrid 1 1 = true ↔
        (3 ≤ countNeighbors blinkerGrid 1 1 ∧ countNeighbors blinkerGrid 1 1 ≤ 4)) ∧
     (updateCells blinkerGrid 1 1 = true ↔
        (mooreCount blinkerGrid 1 1 = 2 ∨ mooreCount blinkerGrid 1 1 = 3))) :=
  ⟨by decide, c1_live_rule_amended blinkerGrid 1 1 (by decide) (by decide)
    (by decide) (by decide) (by decide)⟩

/-- C2: `updateCells` is extensionally the canonical Conway B3/S23 step.
Because the neighbor loop does not exclude `dx = dy = 0`, the count
includes the cell itself, and the `[3, 4]` survival window on that count
is exactly the canonical `{2, 3}` window on the count excluding the cell;
the birth condition `count == 3` for a dead cell is the canonical one
since a dead cell contributes 0 to its own count. -/
theorem c2_updateCells_eq_conwayStep : ∀ g : Grid, updateCells g = conwayStep g := by
  intro g
  funext x y
  by_cases hin : 0 ≤ x ∧ x < (N_CELLS_ROW : Int) ∧ 0 ≤ y ∧ y < (N_CELLS_COL : Int)
  · obtain ⟨hx0, hx, hy0, hy⟩ := hin
    have hkey := count_eq_moore_add_self g x y hx0 hx hy0 hy
    simp only [updateCells, conwayStep,
      if_pos (show _ ∧ _ ∧ _ ∧ _ from ⟨hx0, hx, hy0, hy⟩)]
    cases ha : g x y
    · rw [ha, Bool.toNat_false, Nat.add_zero] at hkey
      simp only [Bool.false_eq_true, if_false, hkey]
      by_cases h3 : mooreCount g x y = 3 <;> simp [h3]
    · rw [ha, Bool.toNat_true] at hkey
      simp only [if_true, hkey]
      split_ifs <;> simp <;> omega
  · simp only [updateCells, conwayStep, if_neg hin]

/-- C3: a dead in-window cell becomes alive iff it has exactly 3 alive
Moore neighbors (excluding itself); with any other neighbor count it
stays dead. (A dead cell contributes 0 to the loop's count, so the
self-inclusion does not shift the birth rule.) -/
theorem c3_dead_rule (g : Grid) (x y : Int)
    (hx0 : 0 ≤ x) (hx : x < (N_CELLS_ROW : Int))
    (hy0 : 0 ≤ y) (hy : y < (N_CELLS_COL : Int)) (hd : g x y = false) :
    updateCells g x y = true ↔ mooreCount g x y = 3 := by
  have hkey := count_eq_moore_add_self g x y hx0 hx hy0 hy
  rw [hd, Bool.toNat_false, Nat.add_zero] at hkey
  simp only [updateCells, if_pos (show _ ∧ _ ∧ _ ∧ _ from ⟨hx0, hx, hy0, hy⟩), hd,
    Bool.false_eq_true, if_false, hkey]
  by_cases h3 : mooreCount g x y = 3 <;> simp [h3]

/-- C3, witness: the dead cell `(1, 1)` of `birthGrid` has exactly 3 alive
Moore neighbors and is born. -/
theorem c3_dead_rule_witness :
    birthGrid 1 1 = false ∧
    (updateCells birthGrid 1 1 = true ↔ mooreCount birthGrid 1 1 = 3) :=
  ⟨by decide, c3_dead_rule birthGrid 1 1 (by decide) (by decide) (by decide)
    (by decide) (by decide)⟩

/-- C4: the count used by the transition reads only positions inside
`[0, N_CELLS_ROW) × [0, N_CELLS_COL)` — grids agreeing on the window give
identical counts everywhere, so out-of-range positions are skipped and
there is no wraparound; at the corner `(0, 0)` the counted positions are
the cell itself plus at most 3 neighbors, so at most 3 alive Moore
neighbors (excluding the cell) ever enter the count there. -/
theorem c4_clipped_neighborhood (g g' : Grid) (x y : Int)
    (h : ∀ i j : Int, 0 ≤ i → i < (N_CELLS_ROW : Int) → 0 ≤ j →
      j < (N_CELLS_COL : Int) → g i j = g' i j) :
    countNeighbors g x y = countNeighbors g' x y ∧
    countNeighbors g 0 0 = mooreCount g 0 0 + (g 0 0).toNat ∧
    mooreCount g 0 0 ≤ 3 :=
  ⟨count_congr g g' h x y,
   count_eq_moore_add_self g 0 0 (by decide) (by decide) (by decide) (by decide),
   (corner_bounds g).2⟩

/-- C4, witness: `blinkerGrid` versus a grid that differs from it only at
negative (out-of-window) coordinates. -/
theorem c4_clipped_neighborhood_witness :
    countNeighbors blinkerGrid 1 1 =
      countNeighbors (fun i j => if i < 0 then true else blinkerGrid i j) 1 1 ∧
    countNeighbors blinkerGrid 0 0 =
      mooreCount blinkerGrid 0 0 + (blinkerGrid 0 0).toNat ∧
    mooreCount blinkerGrid 0 0 ≤ 3 :=
  c4_clipped_neighborhood blinkerGrid
    (fun i j => if i < 0 then true else blinkerGrid i j) 1 1
    (fun _ _ hi _ _ _ => (if_neg (by omega)).symm)

/-! ## Claims C6, C7, C10: parser error handling and frame -/

/-- C6: on any file contents containing a character other than `'#'`,
`'.'` or newline, `readInput` ends in a parse error naming an offending
(invalid) character, and `main`'s file path returns `EXIT_FAILURE`
without entering the main loop. -/
theorem c6_invalid_char_aborts (g : Grid) (input : List Char)
    (h : ∃ c ∈ input, ¬ validChar c) :
    (∃ c, (readInput g input).2 = .parseError c ∧ ¬ validChar c) ∧
    mainWithFile g input = .exitFailure := by
  have h1 := readLoop_invalid input g 0 0 h
  refine ⟨h1, ?_⟩
  obtain ⟨c, hc, -⟩ := h1
  unfold mainWithFile
  rw [if_neg (by decide), if_neg (by decide)]
  rcases hr : readInput g input with ⟨g', o⟩
  rw [readInput] at hr
  rw [hr] at hc
  simp only at hc
  subst hc
  rfl

/-- C6, witness: the file `"#x"` contains the invalid character `'x'`;
parsing fails and the loop is not entered. -/
theorem c6_invalid_char_aborts_witness :
    (∃ c, (readInput gridZero ['#', 'x']).2 = .parseError c ∧ ¬ validChar c) ∧
    mainWithFile gridZero ['#', 'x'] = .exitFailure :=
  c6_invalid_char_aborts gridZero ['#', 'x'] ⟨'x', by decide, by decide⟩

/-- C7, counterexample. The claim states a failed `readInput` call leaves
the grid unchanged. On the all-dead grid with file `"#x"` the call fails,
yet cell `(0, 0)` — written from the `'#'` consumed before the error —
now holds `true`, not its previous value. -/
theorem c7_discard_counterexample :
    (readInput gridZero ['#', 'x']).2 = .parseError 'x' ∧
    ¬((readInput gridZero ['#', 'x']).1 0 0 = gridZero 0 0) := by decide

/-- C7, amended. When `readInput` fails with a parse error, `main` returns
`EXIT_FAILURE` before the main loop, so the partially-written grid is
never used (it is discarded with the process); the grid itself is not
rolled back — cells written before the error keep the parsed values. -/
theorem c7_error_discards_by_aborting (g : Grid) (input : List Char) (c : Char)
    (h : (readInput g input).2 = .parseError c) :
    mainWithFile g input = .exitFailure := by
  unfold mainWithFile
  rw [if_neg (by decide), if_neg (by decide)]
  rw [readInput] at h
  rcases hr : readInput g input with ⟨g', o⟩
  rw [readInput] at hr
  rw [hr] at h
  simp only at h
  subst h
  rfl

/-- C7, witness: the failing call on `"#x"` leads `main` to exit before
the loop. -/
theorem c7_error_discards_by_aborting_witness :
    mainWithFile gridZero ['#', 'x'] = .exitFailure :=
  c7_error_discards_by_aborting gridZero ['#', 'x'] 'x' (by decide)

/-- C10: `readInput` writes only the cells addressed by the `'#'`/`'.'`
characters it actually consumes (column advancing per character, row per
newline, stopping at the first invalid character); every other cell keeps
its previous value — in particular all cells when the file is shorter
than the grid, and all cells addressed only past a parse error. -/
theorem c10_writes_only_consumed (g : Grid) (input : List Char) (i j : Int)
    (h : ∀ w ∈ parseWrites input 0 0, ¬(i = (w.1 : Int) ∧ j = (w.2.1 : Int))) :
    (readInput g input).1 i j = g i j := by
  rw [readInput, readLoop_grid_eq, applyWrites_eq_of_notMem _ _ _ _ h]

/-- C10, witness: on `"#.\n.x#"` the consumed writes address `(0,0)`,
`(1,0)` and `(0,1)` only; cell `(1,1)` — which the `'#'` after the error
would have addressed — keeps its prior (here: alive) value. -/
theorem c10_writes_only_consumed_witness :
    (readInput blinkerGrid ['#', '.', '\n', '.', 'x', '#']).1 1 1 =
      blinkerGrid 1 1 :=
  c10_writes_only_consumed blinkerGrid ['#', '.', '\n', '.', 'x', '#'] 1 1
    (by decide)

/-- C8: round-trip. Parsing a well-formed `'#'`/`'.'` text block whose
lines match the grid's exact dimensions succeeds, and the resulting grid
holds exactly the encoded pattern: cell `(x, y)` is alive iff character
`x` of line `y` is `'#'` (i.e. iff the encoded bit is `true`). -/
theorem c8_roundtrip (g : Grid) (rows : List (List Bool)) (x y : Nat)
    (hdimH : rows.length = N_CELLS_COL)
    (hdimW : ∀ r ∈ rows, r.length = N_CELLS_ROW)
    (hy : y < rows.length) (hx : x < (rows.getD y []).length) :
    (readInput g (encodeRows rows)).2 = .success ∧
    (readInput g (encodeRows rows)).1 (x : Int) (y : Int) =
      (rows.getD y []).getD x false := by
  constructor
  · exact readLoop_valid_success _ g 0 0 (encodeRows_valid rows)
  · have := readLoop_encodeRows_value rows g 0 x y hy hx
    simpa using this

set_option maxRecDepth 2000 in
/-- C8, witness: a 60-line block of 80-character lines parses successfully
and cell `(0, 5)` comes back alive exactly as encoded. -/
theorem c8_roundtrip_witness :
    ((readInput gridZero (encodeRows patternRows)).2 = .success ∧
     (readInput gridZero (encodeRows patternRows)).1 ((0 : Nat) : Int)
        ((5 : Nat) : Int) = (patternRows.getD 5 []).getD 0 false) ∧
    (patternRows.getD 5 []).getD 0 false = true :=
  ⟨c8_roundtrip gridZero patternRows 0 5
      (by unfold patternRows; exact List.length_replicate _ _)
      (fun r hr => by rw [List.eq_of_mem_replicate hr]; decide)
      (by unfold patternRows; rw [List.length_replicate]; decide)
      (by decide),
    by decide⟩

/-- C5: for every valid divisor `N ≥ 1` and initial grid, the frame
counter on entry to iteration `k` is `k % N`; every frame renders; the
transition engine runs in iteration `k` exactly when the counter is 0 on
entry, i.e. when `k % N = 0`; hence in each block of `N` consecutive
frames `j*N, …, j*N + (N-1)` it runs exactly once (at offset 0); and the
grid is replaced by `updateCells` exactly on those frames. -/
theorem c5_tick_schedule (N : Nat) (g0 : Grid) (hN : 0 < N) :
    (∀ k, (runFrames N g0 k).frame = k % N) ∧
    (∀ k, (frameOutput N g0 k).rendered = true) ∧
    (∀ k, (frameOutput N g0 k).ticked = true ↔ k % N = 0) ∧
    (∀ j i, i < N → ((frameOutput N g0 (j * N + i)).ticked = true ↔ i = 0)) ∧
    (∀ k, (runFrames N g0 (k + 1)).grid =
      if (runFrames N g0 k).frame = 0 then updateCells (runFrames N g0 k).grid
      else (runFrames N g0 k).grid) := by
  have hcounter : ∀ k, (runFrames N g0 k).frame = k % N := by
    intro k
    induction k with
    | zero => simp [runFrames]
    | succ k ih =>
      show ((runFrames N g0 k).frame + 1) % N = (k + 1) % N
      rw [ih, Nat.mod_add_mod]
  have hticked : ∀ k, (frameOutput N g0 k).ticked = true ↔ k % N = 0 := by
    intro k
    show (decide ((runFrames N g0 k).frame = 0)) = true ↔ k % N = 0
    rw [hcounter k]
    simp
  refine ⟨hcounter, fun k => rfl, hticked, ?_, fun k => rfl⟩
  intro j i hi
  rw [hticked (j * N + i), Nat.mul_comm j N, Nat.mul_add_mod, Nat.mod_eq_of_lt hi]

/-- C5, witness: with the program's divisor `FRAMES_PER_ITERATION = 12`,
the counter at frame 25 is `25 % 12`, frame 24 renders and ticks, and
within the block starting at frame `2 * 12` the frame at offset 5 does
not tick. -/
theorem c5_tick_schedule_witness :
    (runFrames FRAMES_PER_ITERATION gridZero 25).frame =
      25 % FRAMES_PER_ITERATION ∧
    (frameOutput FRAMES_PER_ITERATION gridZero 24).rendered = true ∧
    ((frameOutput FRAMES_PER_ITERATION gridZero 24).ticked = true ↔
      24 % FRAMES_PER_ITERATION = 0) ∧
    ((frameOutput FRAMES_PER_ITERATION gridZero
        (2 * FRAMES_PER_ITERATION + 5)).ticked = true ↔ (5 : Nat) = 0) :=
  ⟨(c5_tick_schedule FRAMES_PER_ITERATION gridZero (by decide)).1 25,
   (c5_tick_schedule FRAMES_PER_ITERATION gridZero (by decide)).2.1 24,
   (c5_tick_schedule FRAMES_PER_ITERATION gridZero (by decide)).2.2.1 24,
   (c5_tick_schedule FRAMES_PER_ITERATION gridZero (by decide)).2.2.2.1 2 5
     (by decide)⟩

/-- C9: the end-of-frame delay equals
`max(0, target_frame_interval - elapsed)` with
`target_frame_interval = 1000 / FPS` milliseconds: no sleep when the
frame overran the interval, and exactly the remaining portion otherwise
(no catch-up or frame-skip logic). -/
theorem c9_delay_is_clamped_remainder :
    ∀ t : Nat, (delayMs t : Int) =
      max 0 (((1000 / FPS : Nat) : Int) - (t : Int)) := by
  intro t
  unfold delayMs FPS
  split_ifs with h <;> omega
